import Mathlib

/-!
Shallow embedding of the embedded PDF hash extractor of `hashbaker.py`
(classes `SecurityRevision` and `PdfHashExtractor`).

The extractor reads a small surface of the external PDF reader object:
its resolved encryption dictionary, the first element of the document ID
pair, and the security handler's four byte-string attributes
(`udata`, `odata`, `oeseed`, `ueseed`) plus its `encrypt_metadata` flag.
That surface is modelled as explicit data; the extractor's own code is
translated line by line.
-/

/-- Byte strings are modelled as lists of natural numbers (one per byte). -/
abbrev Bytes := List Nat

/-- Hex encoding of one byte, two lowercase hex digits, as in Python
`bytes.hex()`.  `Nat.digitChar` maps 0..15 to `0`..`9`, `a`..`f`. -/
def byteHex (b : Nat) : List Char :=
  [Nat.digitChar (b / 16), Nat.digitChar (b % 16)]

/-- Lowercase hex encoding of a byte string with no separators, as in
Python `bytes.hex()`. -/
def bytesHex (l : Bytes) : String :=
  ⟨l.flatMap byteHex⟩

/-- Python `sep.join(parts)`: the parts interleaved with the separator;
the empty string when the list is empty, no trailing separator. -/
def joinSep (sep : String) : List String → String
  | [] => ""
  | [x] => x
  | x :: y :: xs => x ++ sep ++ joinSep sep (y :: xs)

/-- Python `str(x)` where `x` is an optional integer: `dict.get` with no
default returns `None`, and `str(None)` is the four-letter string. -/
def strOfOptInt : Option Int → String
  | none => "None"
  | some i => toString i

/-- Python `dict.get(key, default)` over an integer-keyed table,
modelling the `SecurityRevision.revisions` dictionary lookup. -/
def dictGetNat : List (Int × Nat) → Int → Nat → Nat
  | [], _, dflt => dflt
  | (k, v) :: rest, key, dflt => if key = k then v else dictGetNat rest key dflt

/-- The table `SecurityRevision.revisions = {2: 32, 3: 32, 4: 32, 5: 48, 6: 48}`. -/
def SecurityRevision.revisions : List (Int × Nat) :=
  [(2, 32), (3, 32), (4, 32), (5, 48), (6, 48)]

/-- The source's `SecurityRevision.get_key_length(revision)`:
`cls.revisions.get(revision, 48)`. -/
def SecurityRevision.get_key_length (revision : Int) : Nat :=
  dictGetNat SecurityRevision.revisions revision 48

/-- The resolved encryption dictionary: a finite string-keyed map whose
values relevant to the extractor are integers. -/
structure EncryptDict where
  entries : List (String × Int)

/-- Python `dict.get(key)` with no default (`None` when absent). -/
def dictGetInt : List (String × Int) → String → Option Int
  | [], _ => none
  | (k, v) :: rest, key => if key = k then some v else dictGetInt rest key

/-- Python `d.get(key)` on the encryption dictionary. -/
def EncryptDict.get (d : EncryptDict) (key : String) : Option Int :=
  dictGetInt d.entries key

/-- Python `d.get(key, dflt)` on the encryption dictionary. -/
def EncryptDict.getD (d : EncryptDict) (key : String) (dflt : Int) : Int :=
  (d.get key).getD dflt

/-- The four byte-string attributes and the metadata flag that
`PdfHashExtractor` reads from the reader's security handler.  `none`
models a `None` attribute; `some []` models an empty byte string (both
are falsy in Python). -/
structure SecurityHandler where
  odata : Option Bytes
  udata : Option Bytes
  oeseed : Option Bytes
  ueseed : Option Bytes
  encrypt_metadata : Bool

/-- The surface of the parsed document that the extractor reads:
the resolved `/Encrypt` dictionary (`none` when the document is not
encrypted), the first element of the document ID pair (the source's
`document_id` property returns `self.pdf.document_id[0]`), and the
security handler. -/
structure Pdf where
  encrypt_dict : Option EncryptDict
  document_id : Bytes
  security_handler : SecurityHandler

/-- The extractor state after a successful `PdfHashExtractor.__init__`. -/
structure PdfHashExtractor where
  pdf : Pdf
  algorithm : Option Int
  length : Int
  permissions : Int
  revision : Int

/-- The error kinds the constructor can raise: `RuntimeError("File not
encrypted")` when the encryption dictionary is absent or empty (Python
truthiness of `self.encrypt_dict`), and `KeyError` from the subscript
reads of `/P` and `/R` (the spec's `MalformedSecurityHandler`). -/
inductive ExtractError where
  | NotEncrypted
  | MalformedSecurityHandler
deriving DecidableEq

/-- Translation of `PdfHashExtractor.__init__` after the reader has
produced the `Pdf` surface: fail when `encrypt_dict` is falsy, read
`/V` with `dict.get` (no failure when absent), `/Length` with default
40, and `/P` and `/R` by subscript (KeyError when absent). -/
def PdfHashExtractor.init (pdf : Pdf) : Except ExtractError PdfHashExtractor :=
  match pdf.encrypt_dict with
  | none => .error .NotEncrypted
  | some d =>
    if d.entries.isEmpty then .error .NotEncrypted
    else
      let algorithm := d.get "/V"
      let length := d.getD "/Length" 40
      match d.get "/P" with
      | none => .error .MalformedSecurityHandler
      | some permissions =>
        match d.get "/R" with
        | none => .error .MalformedSecurityHandler
        | some revision => .ok ⟨pdf, algorithm, length, permissions, revision⟩

/-- One iteration of the loop body of `get_passwords` for one key: skip
the field when it is falsy (`None` or empty), otherwise truncate it to
`max_key_length` bytes and contribute its decimal length and its hex
encoding. -/
def emit_field (max_key_length : Nat) : Option Bytes → List String
  | none => []
  | some data =>
    if data.isEmpty then []
    else
      let data := data.take max_key_length
      [toString data.length, bytesHex data]

/-- The `passwords` list built by `get_passwords`: the loop runs over
the keys `("udata", "odata", "oeseed", "ueseed")` in that order and
extends the list with the contribution of each key. -/
def PdfHashExtractor.passwords_list (e : PdfHashExtractor) : List String :=
  let h := e.pdf.security_handler
  let m := SecurityRevision.get_key_length e.revision
  emit_field m h.udata ++ emit_field m h.odata ++
    emit_field m h.oeseed ++ emit_field m h.ueseed

/-- The source's `get_passwords`: `"*".join(passwords)`. -/
def PdfHashExtractor.get_passwords (e : PdfHashExtractor) : String :=
  joinSep "*" e.passwords_list

/-- The source's `encrypt_metadata` property:
`str(int(self.pdf.security_handler.encrypt_metadata))`. -/
def PdfHashExtractor.encrypt_metadata (e : PdfHashExtractor) : String :=
  if e.pdf.security_handler.encrypt_metadata then "1" else "0"

/-- The `fields` list built by `parse`, after Python's `map(str, ...)`:
integers in decimal, `None` printed as `None`, the metadata flag already
a string, the document ID length and hex, and the password fields. -/
def PdfHashExtractor.parse_fields (e : PdfHashExtractor) : List String :=
  [ "$pdf$" ++ strOfOptInt e.algorithm,
    toString e.revision,
    toString e.length,
    toString e.permissions,
    e.encrypt_metadata,
    toString e.pdf.document_id.length,
    bytesHex e.pdf.document_id,
    e.get_passwords ]

/-- The source's `parse`: `"*".join(map(str, fields))`. -/
def PdfHashExtractor.parse (e : PdfHashExtractor) : String :=
  joinSep "*" e.parse_fields

/-- The whole extraction on one document surface: construct the
extractor, then serialize; any constructor error is terminal and no
fingerprint is produced. -/
def extract (pdf : Pdf) : Except ExtractError String :=
  match PdfHashExtractor.init pdf with
  | .error err => .error err
  | .ok e => .ok e.parse

/-- The maximum field length as the spec words it, for comparison with
the source's `SecurityRevision.get_key_length`: revisions 2, 3 and 4 map
to 32 bytes, revisions 5 and 6 to 48, and any other revision to 48. -/
def max_field_length (revision : Int) : Nat :=
  if revision = 2 ∨ revision = 3 ∨ revision = 4 then 32
  else if revision = 5 ∨ revision = 6 then 48
  else 48

theorem get_key_length_eq_max_field_length (r : Int) :
    SecurityRevision.get_key_length r = max_field_length r := by
  simp only [SecurityRevision.get_key_length, SecurityRevision.revisions,
    dictGetNat, max_field_length]
  split_ifs <;> omega

theorem isEmpty_false_of_ne_nil {α : Type} {l : List α} (h : l ≠ []) :
    l.isEmpty = false := by
  cases l with
  | nil => exact absurd rfl h
  | cons a as => rfl

/-- C1: every emitted byte field is truncated before serialization so
that its emitted length in bytes equals
`min (original_length) (max_field_length revision)`, where
`max_field_length` maps revisions 2, 3, 4 to 32, revisions 5, 6 to 48,
and every other revision to 48 — and the source's
`SecurityRevision.get_key_length` is exactly that function. -/
theorem C1_truncation (rev : Int) (d : Bytes) (hd : d ≠ []) :
    SecurityRevision.get_key_length rev = max_field_length rev ∧
    emit_field (SecurityRevision.get_key_length rev) (some d) =
      [toString (Nat.min d.length (max_field_length rev)),
       bytesHex (d.take (max_field_length rev))] := by
  refine ⟨get_key_length_eq_max_field_length rev, ?_⟩
  simp only [emit_field, isEmpty_false_of_ne_nil hd,
    get_key_length_eq_max_field_length rev]
  simp [List.length_take, Nat.min_comm]

/-- Witness for C1 at revision 6 and a two-byte field. -/
theorem C1_truncation_witness :
    (([17, 34] : Bytes) ≠ []) ∧
    (SecurityRevision.get_key_length 6 = max_field_length 6 ∧
     emit_field (SecurityRevision.get_key_length 6) (some [17, 34]) =
       [toString (Nat.min ([17, 34] : Bytes).length (max_field_length 6)),
        bytesHex (([17, 34] : Bytes).take (max_field_length 6))]) :=
  ⟨by decide, C1_truncation 6 [17, 34] (by decide)⟩

/-- The password fields in the order the spec claims: owner_data,
user_data, owner_seed, user_seed, written from the spec's words for
comparison with the source's `get_passwords` (whose key tuple is
`("udata", "odata", "oeseed", "ueseed")`, user before owner). -/
def spec_order_passwords (e : PdfHashExtractor) : String :=
  let h := e.pdf.security_handler
  let m := SecurityRevision.get_key_length e.revision
  joinSep "*" (emit_field m h.odata ++ emit_field m h.udata ++
    emit_field m h.oeseed ++ emit_field m h.ueseed)

/-- Extractor state with distinct one-byte owner data `0x11` and user
data `0x22`, which separates the two candidate field orders. -/
def exC2 : PdfHashExtractor :=
  ⟨⟨some ⟨[("/V", 2), ("/R", 4), ("/Length", 128), ("/P", -4)]⟩,
    [222, 173, 190, 239],
    ⟨some [17], some [34], none, none, false⟩⟩,
   some 2, 128, -4, 4⟩

/-- C2 counterexample: with owner data `0x11` and user data `0x22`, the
source emits the user pair before the owner pair, so the emitted
password fields differ from the spec's owner-first order. -/
theorem C2_counterexample :
    PdfHashExtractor.init exC2.pdf = .ok exC2 ∧
    exC2.get_passwords = "1*22*1*11" ∧
    spec_order_passwords exC2 = "1*11*1*22" ∧
    exC2.get_passwords ≠ spec_order_passwords exC2 :=
  ⟨rfl, rfl, rfl, by decide⟩

/-- The amended password-fields serialization, spec-style: the
star-delimited flattening of (decimal length, lowercase hex) pairs of
the truncated present non-empty byte fields, in the order user_data,
owner_data, owner_seed, user_seed. -/
def amended_password_fields (e : PdfHashExtractor) : String :=
  let h := e.pdf.security_handler
  let m := SecurityRevision.get_key_length e.revision
  joinSep "*"
    ((([h.udata, h.odata, h.oeseed, h.ueseed].filterMap id).filter
        (fun d => !d.isEmpty)).flatMap
      (fun d => [toString (d.take m).length, bytesHex (d.take m)]))

theorem emit_field_eq_flat (m : Nat) (o : Option Bytes) :
    ((o.toList.filter (fun d => !d.isEmpty)).flatMap
      (fun d => [toString (d.take m).length, bytesHex (d.take m)])) =
    emit_field m o := by
  cases o with
  | none => rfl
  | some d => cases d with
    | nil => rfl
    | cons a as => rfl

/-- C2 amended: the password_fields portion is the star-delimited
flattening of (decimal length, hex) pairs of the present byte fields,
emitted strictly in the order user_data, owner_data, owner_seed,
user_seed; absent fields contribute nothing. -/
theorem C2_amended_order (e : PdfHashExtractor) :
    e.get_passwords = amended_password_fields e := by
  simp only [PdfHashExtractor.get_passwords, amended_password_fields,
    PdfHashExtractor.passwords_list]
  congr 1
  have h4 : ∀ (a b c d : Option Bytes),
      [a, b, c, d].filterMap id = a.toList ++ b.toList ++ c.toList ++ d.toList := by
    intro a b c d
    cases a <;> cases b <;> cases c <;> cases d <;> rfl
  rw [h4, List.filter_append, List.filter_append, List.filter_append,
    List.flatMap_append, List.flatMap_append, List.flatMap_append,
    emit_field_eq_flat, emit_field_eq_flat, emit_field_eq_flat, emit_field_eq_flat]

/-- The (length, hex) pairs contributed by the seed fields
(`oeseed`, `ueseed`), in source order. -/
def PdfHashExtractor.seed_pairs (e : PdfHashExtractor) : List String :=
  let h := e.pdf.security_handler
  let m := SecurityRevision.get_key_length e.revision
  emit_field m h.oeseed ++ emit_field m h.ueseed

/-- The (length, hex) pairs contributed by the legacy validation fields
(`udata`, `odata`), in source order. -/
def PdfHashExtractor.legacy_pairs (e : PdfHashExtractor) : List String :=
  let h := e.pdf.security_handler
  let m := SecurityRevision.get_key_length e.revision
  emit_field m h.udata ++ emit_field m h.odata

/-- Python falsiness of a byte-string attribute: `None` or empty. -/
def falsyField : Option Bytes → Bool
  | none => true
  | some d => d.isEmpty

theorem emit_field_eq_nil_iff (m : Nat) (o : Option Bytes) :
    emit_field m o = [] ↔ falsyField o = true := by
  cases o with
  | none => simp [emit_field, falsyField]
  | some d => cases d with
    | nil => simp [emit_field, falsyField]
    | cons a as => simp [emit_field, falsyField]

/-- Document surface with revision 2 whose security handler exposes a
non-empty `oeseed`; the reader library never builds such a handler for
a legacy revision, but the extractor's own code accepts it. -/
def pdfC3 : Pdf :=
  ⟨some ⟨[("/V", 1), ("/R", 2), ("/P", -4)]⟩, [1],
   ⟨none, none, some [170], none, true⟩⟩

/-- Extractor state produced by `PdfHashExtractor.init pdfC3`. -/
def exC3 : PdfHashExtractor := ⟨pdfC3, some 1, 40, -4, 2⟩

/-- C3 counterexample: the extractor reads all four handler keys for
every revision, so a revision-2 state whose handler carries a seed
yields a fingerprint containing the seed pair, against the claim that
a revision less than or equal to 4 fingerprint never contains seed
fields and that only revision-appropriate keys are read. -/
theorem C3_counterexample :
    PdfHashExtractor.init pdfC3 = .ok exC3 ∧
    exC3.revision ≤ 4 ∧
    exC3.seed_pairs = ["1", "aa"] ∧
    exC3.passwords_list = ["1", "aa"] ∧
    extract pdfC3 = .ok "$pdf$1*2*40*-4*1*1*01*1*aa" :=
  ⟨rfl, by decide, rfl, rfl, rfl⟩

/-- C3 amended: the extractor reads the keys udata, odata, oeseed and
ueseed for every revision, so field presence in the fingerprint is
decided by which fields the security handler exposes non-empty, not by
the revision: the password pairs split into the legacy pairs followed
by the seed pairs, the seed pairs are absent exactly when both seed
attributes are falsy, and the legacy pairs are absent exactly when both
legacy attributes are falsy.  Presence matches revision only under the
external reader's guarantee that it populates only revision-appropriate
handler attributes. -/
theorem C3_amended_presence (e : PdfHashExtractor) :
    e.passwords_list = e.legacy_pairs ++ e.seed_pairs ∧
    (e.seed_pairs = [] ↔
      (falsyField e.pdf.security_handler.oeseed = true ∧
       falsyField e.pdf.security_handler.ueseed = true)) ∧
    (e.legacy_pairs = [] ↔
      (falsyField e.pdf.security_handler.udata = true ∧
       falsyField e.pdf.security_handler.odata = true)) := by
  refine ⟨?_, ?_, ?_⟩
  · simp [PdfHashExtractor.passwords_list, PdfHashExtractor.legacy_pairs,
      PdfHashExtractor.seed_pairs, List.append_assoc]
  · simp [PdfHashExtractor.seed_pairs, List.append_eq_nil, emit_field_eq_nil_iff]
  · simp [PdfHashExtractor.legacy_pairs, List.append_eq_nil, emit_field_eq_nil_iff]

/-- Encryption dictionary carrying `/P` and `/R` but no `/V`. -/
def dC4 : EncryptDict := ⟨[("/P", -4), ("/R", 4)]⟩

/-- Document surface whose encryption dictionary lacks `/V`. -/
def pdfC4 : Pdf := ⟨some dC4, [170], ⟨none, none, none, none, true⟩⟩

/-- C4 counterexample: `/V` is read with `dict.get` and so is not
required — extraction of a dictionary without `/V` succeeds and prints
the algorithm as `None`, against the claim that a missing `/V` fails
with `MalformedSecurityHandler`. -/
theorem C4_counterexample :
    dC4.get "/V" = none ∧ pdfC4.encrypt_dict = some dC4 ∧
    extract pdfC4 = .ok "$pdf$None*4*40*-4*1*1*aa*" :=
  ⟨rfl, rfl, rfl⟩

/-- C4 amended: the constructor requires `/P` and `/R` (read by
subscript, so a missing one raises `KeyError`, the spec's
`MalformedSecurityHandler`); `/V` is read with `dict.get` and its
absence does not fail. -/
theorem C4_amended_required (pdf : Pdf) (d : EncryptDict)
    (h1 : pdf.encrypt_dict = some d) (h2 : d.entries ≠ [])
    (h3 : d.get "/P" = none ∨ d.get "/R" = none) :
    extract pdf = .error ExtractError.MalformedSecurityHandler := by
  rcases h3 with hP | hR
  · simp [extract, PdfHashExtractor.init, h1, isEmpty_false_of_ne_nil h2, hP]
  · cases hP : d.get "/P" with
    | none =>
      simp [extract, PdfHashExtractor.init, h1, isEmpty_false_of_ne_nil h2, hP]
    | some p =>
      simp [extract, PdfHashExtractor.init, h1, isEmpty_false_of_ne_nil h2, hP, hR]

/-- Encryption dictionary with only `/R`. -/
def dC4w : EncryptDict := ⟨[("/R", 6)]⟩

/-- Document surface whose encryption dictionary lacks `/P`. -/
def pdfC4w : Pdf := ⟨some dC4w, [1], ⟨none, none, none, none, true⟩⟩

/-- Witness for the amended C4 at a dictionary missing `/P`. -/
theorem C4_amended_required_witness :
    (pdfC4w.encrypt_dict = some dC4w ∧ dC4w.entries ≠ [] ∧
      (dC4w.get "/P" = none ∨ dC4w.get "/R" = none)) ∧
    extract pdfC4w = .error ExtractError.MalformedSecurityHandler :=
  ⟨⟨rfl, by decide, Or.inl rfl⟩,
   C4_amended_required pdfC4w dC4w rfl (by decide) (Or.inl rfl)⟩

/-- C5: a well-formed document without an encryption dictionary fails
with the NotEncrypted error kind (the source's `RuntimeError("File not
encrypted")`), and no fingerprint is produced. -/
theorem C5_not_encrypted (pdf : Pdf) (h : pdf.encrypt_dict = none) :
    extract pdf = .error ExtractError.NotEncrypted := by
  simp [extract, PdfHashExtractor.init, h]

/-- Document surface with no encryption dictionary. -/
def pdfC5 : Pdf := ⟨none, [1], ⟨none, none, none, none, true⟩⟩

/-- Witness for C5 at a concrete unencrypted document. -/
theorem C5_not_encrypted_witness :
    pdfC5.encrypt_dict = none ∧
    extract pdfC5 = .error ExtractError.NotEncrypted :=
  ⟨rfl, C5_not_encrypted pdfC5 rfl⟩

/-- C6: the `/P` value is carried through as a signed integer and
serialized by Python `str`, so a permissions mask of -3904 appears in
the fingerprint fields as the literal decimal string "-3904" (the
fourth star-delimited field), never an unsigned reinterpretation. -/
theorem C6_permissions (e : PdfHashExtractor) (h : e.permissions = -3904) :
    e.parse_fields[3]? = some "-3904" ∧
    "-3904" ∈ e.parse_fields ∧
    e.parse = joinSep "*" e.parse_fields := by
  have hs : toString e.permissions = "-3904" := by rw [h]; rfl
  refine ⟨?_, ?_, rfl⟩
  · simp [PdfHashExtractor.parse_fields, hs]
  · rw [← hs]
    simp [PdfHashExtractor.parse_fields]

/-- Extractor state with the realistic restrictive mask -3904. -/
def exC6 : PdfHashExtractor :=
  ⟨⟨some ⟨[("/V", 2), ("/R", 4), ("/P", -3904)]⟩, [170],
    ⟨none, none, none, none, true⟩⟩,
   some 2, 40, -3904, 4⟩

/-- Witness for C6 at the concrete mask -3904. -/
theorem C6_permissions_witness :
    exC6.permissions = -3904 ∧
    (exC6.parse_fields[3]? = some "-3904" ∧
     "-3904" ∈ exC6.parse_fields ∧
     exC6.parse = joinSep "*" exC6.parse_fields) :=
  ⟨rfl, C6_permissions exC6 rfl⟩

/-- C7: extraction is deterministic — it is a pure function of the
document surface, so two runs on the same input yield identical
results (byte-identical fingerprint strings on success). -/
theorem C7_deterministic (p q : Pdf) (h : p = q) : extract p = extract q := by
  rw [h]

/-- Encrypted document surface used to witness determinism. -/
def pdfC7 : Pdf :=
  ⟨some ⟨[("/V", 2), ("/R", 4), ("/P", -4)]⟩, [9],
   ⟨some [1], some [2], none, none, true⟩⟩

/-- Witness for C7: two runs on the fixed input agree. -/
theorem C7_deterministic_witness :
    pdfC7 = pdfC7 ∧ extract pdfC7 = extract pdfC7 :=
  ⟨rfl, C7_deterministic pdfC7 pdfC7 rfl⟩

/-- Normalization of a byte-string attribute replacing an empty present
value by an absent one. -/
def dropEmptyField : Option Bytes → Option Bytes
  | some [] => none
  | o => o

/-- The handler with every empty byte field replaced by an absent one. -/
def SecurityHandler.dropEmpty (h : SecurityHandler) : SecurityHandler :=
  ⟨dropEmptyField h.odata, dropEmptyField h.udata,
   dropEmptyField h.oeseed, dropEmptyField h.ueseed, h.encrypt_metadata⟩

/-- The extractor with its security handler replaced. -/
def PdfHashExtractor.withHandler (e : PdfHashExtractor) (h : SecurityHandler) :
    PdfHashExtractor :=
  ⟨⟨e.pdf.encrypt_dict, e.pdf.document_id, h⟩,
   e.algorithm, e.length, e.permissions, e.revision⟩

theorem emit_field_dropEmpty (m : Nat) (o : Option Bytes) :
    emit_field m (dropEmptyField o) = emit_field m o := by
  cases o with
  | none => rfl
  | some d => cases d with
    | nil => rfl
    | cons a as => rfl

/-- C9: a byte field that is present but empty is treated exactly like
an absent one — it contributes no pair (Python falsiness of the empty
byte string), so replacing every empty field by an absent one leaves
the emitted password fields unchanged, and an empty field on its own
contributes nothing. -/
theorem C9_empty_eq_absent (e : PdfHashExtractor) :
    emit_field (SecurityRevision.get_key_length e.revision) (some []) = [] ∧
    (e.withHandler e.pdf.security_handler.dropEmpty).get_passwords =
      e.get_passwords := by
  refine ⟨rfl, ?_⟩
  simp only [PdfHashExtractor.get_passwords, PdfHashExtractor.passwords_list,
    PdfHashExtractor.withHandler, SecurityHandler.dropEmpty, emit_field_dropEmpty]

theorem bytesHex_length (l : Bytes) : (bytesHex l).length = 2 * l.length := by
  induction l with
  | nil => rfl
  | cons b bs ih =>
    have h2 : (bytesHex (b :: bs)).length = 2 + (bytesHex bs).length := by
      simp [bytesHex, String.length, byteHex]
      omega
    rw [h2, ih, List.length_cons]
    ring

/-- C10: every emitted (length, hex) pair is internally consistent: the
decimal length field is the byte count of the truncated datum, the hex
field has exactly twice that many characters, the length never exceeds
the revision's key length, and the document ID length field (sixth
fingerprint field) is half the character count of the document ID hex
field (seventh fingerprint field). -/
theorem C10_pair_consistency (e : PdfHashExtractor) (f : Option Bytes)
    (hf : f ∈ [e.pdf.security_handler.udata, e.pdf.security_handler.odata,
               e.pdf.security_handler.oeseed, e.pdf.security_handler.ueseed])
    (hne : emit_field (SecurityRevision.get_key_length e.revision) f ≠ []) :
    emit_field (SecurityRevision.get_key_length e.revision) f =
      [toString ((f.getD []).take (SecurityRevision.get_key_length e.revision)).length,
       bytesHex ((f.getD []).take (SecurityRevision.get_key_length e.revision))] ∧
    (bytesHex ((f.getD []).take (SecurityRevision.get_key_length e.revision))).length =
      2 * ((f.getD []).take (SecurityRevision.get_key_length e.revision)).length ∧
    ((f.getD []).take (SecurityRevision.get_key_length e.revision)).length ≤
      SecurityRevision.get_key_length e.revision ∧
    e.parse_fields[5]? = some (toString e.pdf.document_id.length) ∧
    e.parse_fields[6]? = some (bytesHex e.pdf.document_id) ∧
    (bytesHex e.pdf.document_id).length = 2 * e.pdf.document_id.length := by
  refine ⟨?_, bytesHex_length _, List.length_take_le _ _, ?_, ?_, bytesHex_length _⟩
  · cases f with
    | none => exact absurd rfl hne
    | some d =>
      cases d with
      | nil => exact absurd rfl hne
      | cons a as => rfl
  · simp [PdfHashExtractor.parse_fields]
  · simp [PdfHashExtractor.parse_fields]

/-- Extractor state used to witness C10. -/
def exC10 : PdfHashExtractor :=
  ⟨⟨some ⟨[("/R", 2), ("/P", -4)]⟩, [26, 43],
    ⟨none, some [5], none, none, true⟩⟩,
   none, 40, -4, 2⟩

/-- Witness for C10 at a concrete one-byte user datum. -/
theorem C10_pair_consistency_witness :
    ((some [5] : Option Bytes) ∈
        [exC10.pdf.security_handler.udata, exC10.pdf.security_handler.odata,
         exC10.pdf.security_handler.oeseed, exC10.pdf.security_handler.ueseed] ∧
      emit_field (SecurityRevision.get_key_length exC10.revision) (some [5]) ≠ []) ∧
    (emit_field (SecurityRevision.get_key_length exC10.revision) (some [5]) =
      [toString (((some [5] : Option Bytes).getD []).take
          (SecurityRevision.get_key_length exC10.revision)).length,
       bytesHex (((some [5] : Option Bytes).getD []).take
          (SecurityRevision.get_key_length exC10.revision))] ∧
    (bytesHex (((some [5] : Option Bytes).getD []).take
        (SecurityRevision.get_key_length exC10.revision))).length =
      2 * (((some [5] : Option Bytes).getD []).take
        (SecurityRevision.get_key_length exC10.revision)).length ∧
    (((some [5] : Option Bytes).getD []).take
        (SecurityRevision.get_key_length exC10.revision)).length ≤
      SecurityRevision.get_key_length exC10.revision ∧
    exC10.parse_fields[5]? = some (toString exC10.pdf.document_id.length) ∧
    exC10.parse_fields[6]? = some (bytesHex exC10.pdf.document_id) ∧
    (bytesHex exC10.pdf.document_id).length = 2 * exC10.pdf.document_id.length) :=
  ⟨⟨by decide, by decide⟩,
   C10_pair_consistency exC10 (some [5]) (by decide) (by decide)⟩

/-- Decidable check that a string contains no newline (the fingerprint
must be exactly one line). -/
def lineFree (s : String) : Bool := s.data.all (fun c => c != '\n')

theorem lineFree_append (a b : String) :
    lineFree (a ++ b) = (lineFree a && lineFree b) := by
  simp [lineFree, String.data_append]

theorem digitChar_ne_newline : ∀ n : Nat, Nat.digitChar n ≠ '\n'
  | 0 => by decide
  | 1 => by decide
  | 2 => by decide
  | 3 => by decide
  | 4 => by decide
  | 5 => by decide
  | 6 => by decide
  | 7 => by decide
  | 8 => by decide
  | 9 => by decide
  | 10 => by decide
  | 11 => by decide
  | 12 => by decide
  | 13 => by decide
  | 14 => by decide
  | 15 => by decide
  | (n + 16) => by
      have h : Nat.digitChar (n + 16) = '*' := rfl
      rw [h]; decide

theorem toDigitsCore_lineFree (b : Nat) :
    ∀ (fuel n : Nat) (acc : List Char),
      acc.all (fun c => c != '\n') = true →
      (Nat.toDigitsCore b fuel n acc).all (fun c => c != '\n') = true := by
  intro fuel
  induction fuel with
  | zero => intro n acc h; exact h
  | succ fuel ih =>
    intro n acc h
    simp only [Nat.toDigitsCore]
    split
    · simp [digitChar_ne_newline, h]
    · exact ih _ _ (by simp [digitChar_ne_newline, h])

theorem lineFree_natToString (n : Nat) : lineFree (toString n) = true := by
  show (Nat.toDigits 10 n).all (fun c => c != '\n') = true
  exact toDigitsCore_lineFree 10 (n + 1) n [] rfl

theorem lineFree_intToString (i : Int) : lineFree (toString i) = true := by
  cases i with
  | ofNat n => exact lineFree_natToString n
  | negSucc n =>
    show lineFree ("-" ++ toString (n + 1)) = true
    rw [lineFree_append, lineFree_natToString]
    rfl

theorem lineFree_bytesHex (l : Bytes) : lineFree (bytesHex l) = true := by
  show (l.flatMap byteHex).all (fun c => c != '\n') = true
  induction l with
  | nil => rfl
  | cons b bs ih =>
    simp only [List.flatMap_cons, List.all_append, ih, Bool.and_true]
    simp [byteHex, digitChar_ne_newline]

theorem lineFree_joinSep (sep : String) (hsep : lineFree sep = true) :
    ∀ l : List String, (∀ s ∈ l, lineFree s = true) →
      lineFree (joinSep sep l) = true := by
  intro l
  induction l with
  | nil => intro _; rfl
  | cons x xs ih =>
    intro h
    cases xs with
    | nil => exact h x (by simp)
    | cons y ys =>
      show lineFree (x ++ sep ++ joinSep sep (y :: ys)) = true
      rw [lineFree_append, lineFree_append]
      have hx := h x (by simp)
      have hys : ∀ s ∈ y :: ys, lineFree s = true :=
        fun s hs => h s (List.mem_cons_of_mem x hs)
      simp [hx, hsep, ih hys]

theorem lineFree_emit_field (m : Nat) (o : Option Bytes) :
    ∀ s ∈ emit_field m o, lineFree s = true := by
  intro s hs
  cases o with
  | none => simp [emit_field] at hs
  | some d =>
    simp only [emit_field] at hs
    split at hs
    · simp at hs
    · simp only [List.mem_cons, List.mem_singleton] at hs
      rcases hs with h | h | h
      · rw [h]; exact lineFree_natToString _
      · rw [h]; exact lineFree_bytesHex _
      · simp at h

theorem lineFree_get_passwords (e : PdfHashExtractor) :
    lineFree e.get_passwords = true := by
  apply lineFree_joinSep "*" (by decide)
  intro s hs
  simp only [PdfHashExtractor.passwords_list, List.mem_append] at hs
  rcases hs with ((h | h) | h) | h <;> exact lineFree_emit_field _ _ s h

/-- The fingerprint template as the spec words it, written by direct
string concatenation: dollar pdf dollar, then algorithm version,
revision, key length, permissions, the metadata flag as 0 or 1, the
document ID byte length, the document ID hex, and the password fields,
all star-delimited.  The star before the final component stays even
when the password fields are empty. -/
def spec_fingerprint (e : PdfHashExtractor) : String :=
  "$pdf$" ++ strOfOptInt e.algorithm ++ "*" ++ toString e.revision ++ "*" ++
    toString e.length ++ "*" ++ toString e.permissions ++ "*" ++
    e.encrypt_metadata ++ "*" ++ toString e.pdf.document_id.length ++ "*" ++
    bytesHex e.pdf.document_id ++ "*" ++ e.get_passwords

/-- Document surface matching the spec's revision-4 scenario but with
no password fields exposed, so that the serialized password component
is empty. -/
def pdfC8 : Pdf :=
  ⟨some ⟨[("/V", 2), ("/R", 4), ("/Length", 128), ("/P", -4)]⟩,
   [222, 173, 190, 239], ⟨none, none, none, none, false⟩⟩

/-- Extractor state produced by `PdfHashExtractor.init pdfC8`. -/
def exC8 : PdfHashExtractor := ⟨pdfC8, some 2, 128, -4, 4⟩

/-- C8 counterexample: when the password fields component is empty, the
fingerprint ends with the delimiter (Python `"*".join` places a star
before the final empty component), against the claim that there is no
trailing delimiter including when password_fields is empty. -/
theorem C8_counterexample :
    PdfHashExtractor.init pdfC8 = .ok exC8 ∧
    exC8.get_passwords = "" ∧
    extract pdfC8 = .ok "$pdf$2*4*128*-4*0*4*deadbeef*" ∧
    "$pdf$2*4*128*-4*0*4*deadbeef*".data.getLast? = some '*' :=
  ⟨rfl, rfl, rfl, by decide⟩

/-- C8 amended: the fingerprint is exactly the star-delimited template
(dollar pdf dollar, algorithm version, revision, key length bits,
permissions, metadata flag as 0 or 1, document ID byte length,
document ID lowercase hex, password fields), with all integers in
decimal, and contains no newline (exactly one line); when the password
fields component is empty the template leaves a trailing star, so the
no-trailing-delimiter clause holds only for non-empty password
fields. -/
theorem C8_amended_format (e : PdfHashExtractor) :
    e.parse = spec_fingerprint e ∧ lineFree e.parse = true := by
  constructor
  · simp only [PdfHashExtractor.parse, PdfHashExtractor.parse_fields,
      spec_fingerprint, joinSep, String.append_assoc]
  · apply lineFree_joinSep "*" (by decide)
    intro s hs
    simp only [PdfHashExtractor.parse_fields, List.mem_cons,
      List.mem_singleton] at hs
    rcases hs with h | h | h | h | h | h | h | h | h
    · rw [h, lineFree_append]
      have halg : lineFree (strOfOptInt e.algorithm) = true := by
        cases e.algorithm with
        | none => decide
        | some i => exact lineFree_intToString i
      rw [halg]
      decide
    · rw [h]; exact lineFree_intToString _
    · rw [h]; exact lineFree_intToString _
    · rw [h]; exact lineFree_intToString _
    · rw [h]
      simp only [PdfHashExtractor.encrypt_metadata]
      split <;> decide
    · rw [h]; exact lineFree_natToString _
    · rw [h]; exact lineFree_bytesHex _
    · rw [h]; exact lineFree_get_passwords e
    · simp at h

theorem get_key_length_values :
    SecurityRevision.get_key_length 2 = 32 ∧
    SecurityRevision.get_key_length 3 = 32 ∧
    SecurityRevision.get_key_length 4 = 32 ∧
    SecurityRevision.get_key_length 5 = 48 ∧
    SecurityRevision.get_key_length 6 = 48 ∧
    SecurityRevision.get_key_length 7 = 48 ∧
    SecurityRevision.get_key_length (-1) = 48 := by decide
